import Mathlib

/-!
Shallow embedding of the generic CRUD core of the repository
(`app/core/handlers/base.py` and `app/schemas/core.py`).

Modelling choices:
* A BSON document is a flat Python dict from string keys to values,
  embedded as an association list `Doc` with Python-dict semantics:
  `dictGet` is `d.get(k)`, `dictSet` is `d[k] = v` (replace in place or
  append), `dictUpdate` is `d.update(patch)` (left-to-right assignment),
  `dictGetD` is `d.get(k, default)`.
* `datetime.now(timezone.utc)` is an explicit clock argument `now : Nat`
  threaded into each operation (`Value.time now`); a later wall-clock
  reading is a strictly larger `Nat`.
* A Mongo `ObjectId` is a `Nat`; a collection is an association list of
  `(objectId, document)` pairs plus a fresh-id counter (`insert_one`
  returns the assigned id, `find_one`/`update_one`/`delete_one` address
  the first matching id, as Mongo's single-document commands do).
  `str(inserted_id)` / `ObjectId(id)` round-trip for well-formed ids, so
  the string conversion is not modelled separately.
* Raised exceptions become `Except` errors: `CrudError.notFound` is the
  `HTTPException(status_code=404, ...)` of `get_by_id` and
  `find_and_is_soft_deleted`.
* Async calls are direct calls; the lifecycle hooks (`on_create`,
  `on_update`, `on_delete`) are no-ops in the base class, so a mutating
  operation records which hooks it invoked as a `List Hook`.
-/

/-- A BSON/JSON-ish scalar stored in a document field. -/
inductive Value where
  | str : String → Value
  | int : Int → Value
  | bool : Bool → Value
  | time : Nat → Value
  | null : Value
deriving DecidableEq, Repr

/-- A flat document: a Python dict from field names to values. -/
abbrev Doc := List (String × Value)

/-- Python `d.get(k)`: the value of the first binding of `k`. -/
def dictGet : Doc → String → Option Value
  | [], _ => none
  | kv :: rest, k => if kv.1 = k then some kv.2 else dictGet rest k

/-- Python `d.get(k, dflt)`. -/
def dictGetD (d : Doc) (k : String) (dflt : Value) : Value :=
  (dictGet d k).getD dflt

/-- Python `d[k] = v`: replace the binding in place, else append. -/
def dictSet : Doc → String → Value → Doc
  | [], k, v => [(k, v)]
  | kv :: rest, k, v => if kv.1 = k then (k, v) :: rest else kv :: dictSet rest k v

/-- Python `d.update(patch)`: assign each binding of `patch` in order. -/
def dictUpdate (d : Doc) (patch : Doc) : Doc :=
  patch.foldl (fun acc kv => dictSet acc kv.1 kv.2) d

/-- The documents of one Mongo collection, keyed by ObjectId. -/
abbrev Docs := List (Nat × Doc)

/-- Mongo `find_one({"_id": id})` over the collection's documents. -/
def findDoc : Docs → Nat → Option Doc
  | [], _ => none
  | kv :: rest, id => if kv.1 = id then some kv.2 else findDoc rest id

/-- Mongo `update_one({"_id": id}, {"$set": patch})`: field-merge the patch
into the first document whose id matches. -/
def setFirst : Docs → Nat → Doc → Docs
  | [], _, _ => []
  | kv :: rest, id, patch =>
    if kv.1 = id then (kv.1, dictUpdate kv.2 patch) :: rest
    else kv :: setFirst rest id patch

/-- Mongo `delete_one({"_id": id})`: remove the first document whose id
matches. -/
def removeFirst : Docs → Nat → Docs
  | [], _ => []
  | kv :: rest, id => if kv.1 = id then rest else kv :: removeFirst rest id

/-- The handler's collection inside the store: its documents and the next
fresh ObjectId the store will assign. -/
structure DB where
  docs : Docs
  nextId : Nat
deriving DecidableEq, Repr

/-- Every stored id is below the fresh-id counter (true of any store built
by `insert_one` from empty; needed so a fresh insert cannot be shadowed). -/
def DB.Wf (db : DB) : Prop :=
  ∀ kv ∈ db.docs, kv.1 < db.nextId

instance (db : DB) : Decidable db.Wf := by
  unfold DB.Wf
  infer_instance

/-- Driver `find_one(filter)` with an identity filter. -/
def DB.find_one (db : DB) (id : Nat) : Option Doc :=
  findDoc db.docs id

/-- Driver `insert_one(doc)`: store the document under a fresh id and
return the `inserted_id`. The write is acknowledged. -/
def DB.insert_one (db : DB) (d : Doc) : DB × Nat :=
  ({ docs := db.docs ++ [(db.nextId, d)], nextId := db.nextId + 1 }, db.nextId)

/-- Driver `update_one(filter, {"$set": patch})`; `acknowledged` is true on
an acknowledged connection. -/
def DB.update_one (db : DB) (id : Nat) (patch : Doc) : DB × Bool :=
  ({ db with docs := setFirst db.docs id patch }, true)

/-- Driver `delete_one(filter)`; `acknowledged` is true on an acknowledged
connection. -/
def DB.delete_one (db : DB) (id : Nat) : DB × Bool :=
  ({ db with docs := removeFirst db.docs id }, true)

/-- The error raised by an operation of the CRUD core: `notFound` is the
`HTTPException(status_code=404, ...)` the spec's taxonomy calls `NotFound`. -/
inductive CrudError where
  | notFound
deriving DecidableEq, Repr

/-- A lifecycle hook invocation (`on_create` / `on_update` / `on_delete`). -/
inductive Hook where
  | onCreate
  | onUpdate
  | onDelete
deriving DecidableEq, Repr

/-- How one field of a Pydantic update-shape instance was provided, so that
`model_dump(exclude_none=True, exclude_defaults=True, exclude_unset=True)`
can be embedded: `unset` was never provided, `dflt` was provided equal to
the field's default, `noneVal` was provided as `None`, `set v` was
explicitly provided as the non-default non-None value `v`. -/
inductive FieldState where
  | unset
  | dflt : Value → FieldState
  | noneVal
  | set : Value → FieldState
deriving DecidableEq, Repr

/-- An update-shape instance: the model's fields with how each was given. -/
abbrev UpdateShape := List (String × FieldState)

/-- Pydantic `item.model_dump(exclude_none=True, exclude_defaults=True,
exclude_unset=True)`: keep exactly the explicitly-set fields. -/
def modelDumpSparse : UpdateShape → Doc
  | [] => []
  | (k, FieldState.set v) :: rest => (k, v) :: modelDumpSparse rest
  | _ :: rest => modelDumpSparse rest

/-- Result of `create`: the store afterwards, `str(result.inserted_id)`
(as the underlying id), and the hooks invoked. -/
structure CreateOutcome where
  db : DB
  inserted_id : Nat
  hooks : List Hook
deriving DecidableEq, Repr

/-- Result of `update`/`delete`: the store afterwards, the returned
boolean, and the hooks invoked. -/
structure WriteOutcome where
  db : DB
  ack : Bool
  hooks : List Hook
deriving DecidableEq, Repr

/-- The read model `self._read_model(**item)` produced by `get_by_id`: the
composed read shape maps the raw record's `_id` to the string `id` field
(`FromMongo.validate_id`) and carries the record's field values through;
extra stored fields are ignored (`extra="ignore"`), so field access on the
parsed shape is `dictGet` on the raw fields. -/
structure ReadShape where
  id : Nat
  fields : Doc
deriving DecidableEq, Repr

/-- The configuration of `BaseCRUD` (`app/core/handlers/base.py`): the
collection name and read-model type are fixed by the surrounding
definitions, so only the behaviour flags remain. -/
structure BaseCRUD where
  make_time_stamps : Bool
  soft_delete : Bool
deriving DecidableEq, Repr

/-- Handler `id_exists`: `find_one` by id, `item is not None`. -/
def BaseCRUD.id_exists (_c : BaseCRUD) (id : Nat) (db : DB) : Bool :=
  (db.find_one id).isSome

/-- Handler `find_and_is_soft_deleted`: 404 when no record matches, else
`item.get("is_deleted", False)`. -/
def BaseCRUD.find_and_is_soft_deleted (_c : BaseCRUD) (id : Nat) (db : DB) :
    Except CrudError Value :=
  match db.find_one id with
  | none => Except.error CrudError.notFound
  | some item => Except.ok (dictGetD item "is_deleted" (Value.bool false))

/-- Handler `get_by_id`: 404 when no record matches, else parse the raw record
into the read model. -/
def BaseCRUD.get_by_id (_c : BaseCRUD) (id : Nat) (db : DB) :
    Except CrudError ReadShape :=
  match db.find_one id with
  | none => Except.error CrudError.notFound
  | some item => Except.ok { id := id, fields := item }

/-- Private `__create` (name-mangled `_BaseCRUD__create`): plain `insert_one`. -/
def BaseCRUD.priv_create (_c : BaseCRUD) (item_dict : Doc) (db : DB) : DB × Nat :=
  db.insert_one item_dict

/-- Private `__update` (name-mangled `_BaseCRUD__update`): plain
`update_one({"_id": ObjectId(id)}, {"$set": item_dict})`. -/
def BaseCRUD.priv_update (_c : BaseCRUD) (id : Nat) (item_dict : Doc) (db : DB) :
    DB × Bool :=
  db.update_one id item_dict

/-- Helper `_create`: stamp `item_dict["created_at"] = item_dict["updated_at"] =
datetime.now(timezone.utc)` when timestamping is enabled, then insert. -/
def BaseCRUD._create (c : BaseCRUD) (item_dict : Doc) (now : Nat) (db : DB) :
    DB × Nat :=
  let item_dict :=
    if c.make_time_stamps then
      dictSet (dictSet item_dict "created_at" (Value.time now)) "updated_at" (Value.time now)
    else item_dict
  c.priv_create item_dict db

/-- Helper `_update`: stamp `item_dict["updated_at"]` when timestamping is
enabled, then issue the field-merge update. -/
def BaseCRUD._update (c : BaseCRUD) (id : Nat) (item_dict : Doc) (now : Nat)
    (db : DB) : DB × Bool :=
  let item_dict :=
    if c.make_time_stamps then dictSet item_dict "updated_at" (Value.time now)
    else item_dict
  c.priv_update id item_dict db

/-- In `_delete`, the guard is `if self.find_and_is_soft_deleted(id, db):`
with no `await`: the expression evaluates to a coroutine object, and a
coroutine object is truthy, so the guard always holds. -/
def coroutine_truthy : Bool := true

/-- Helper `_delete`: because of the un-awaited guard (`coroutine_truthy`) the
first branch — a hard `delete_one` — is always taken; the soft-delete
branch below it (which would `$set` the key `"deleted"`, plus
`"updated_at"` under timestamping) is unreachable, as is the final hard
delete. -/
def BaseCRUD._delete (c : BaseCRUD) (id : Nat) (now : Nat) (db : DB) : DB × Bool :=
  if coroutine_truthy then
    db.delete_one id
  else if c.soft_delete then
    let update_fields : Doc := [("deleted", Value.bool true)]
    let update_fields :=
      if c.make_time_stamps then dictSet update_fields "updated_at" (Value.time now)
      else update_fields
    db.update_one id update_fields
  else
    db.delete_one id

/-- Handler `create`: dump the create shape, `item_updated.update(defaults_fields)`
when any extra defaults were passed, `_create`, invoke `on_create`, return
the inserted id. -/
def BaseCRUD.create (c : BaseCRUD) (item : Doc) (db : DB) (defaults_fields : Doc)
    (now : Nat) : CreateOutcome :=
  let item_updated := item
  let item_updated :=
    if defaults_fields.isEmpty then item_updated
    else dictUpdate item_updated defaults_fields
  let r := c._create item_updated now db
  { db := r.1, inserted_id := r.2, hooks := [Hook.onCreate] }

/-- Handler `update`: if the id exists, `_update` with the sparse dump of the
update shape, invoke `on_update`, return `result.acknowledged`; else
return `False` without touching the store. -/
def BaseCRUD.update (c : BaseCRUD) (id : Nat) (item : UpdateShape) (now : Nat)
    (db : DB) : WriteOutcome :=
  if c.id_exists id db then
    let r := c._update id (modelDumpSparse item) now db
    { db := r.1, ack := r.2, hooks := [Hook.onUpdate] }
  else
    { db := db, ack := false, hooks := [] }

/-- Handler `delete`: if the id exists, `_delete`, invoke `on_delete`, return
`result.acknowledged`; else return `False` without touching the store. -/
def BaseCRUD.delete (c : BaseCRUD) (id : Nat) (now : Nat) (db : DB) : WriteOutcome :=
  if c.id_exists id db then
    let r := c._delete id now db
    { db := r.1, ack := r.2, hooks := [Hook.onDelete] }
  else
    { db := db, ack := false, hooks := [] }

/-!
Model Composer (`app/schemas/core.py`). A composed shape is described by
its list of field declarations, each a `(field name, declared type)` pair.
-/

/-- The error a composition can raise: `invalidConfiguration` is the
`ValueError("Invalid model type")` of `ModelGenerator._generate`, which the
spec's taxonomy calls `InvalidConfiguration`. -/
inductive ModelError where
  | invalidConfiguration
deriving DecidableEq, Repr

/-- One field declaration of a Pydantic model: name and declared type. -/
abbrev FieldSpec := String × String

/-- The field declarations of `FromMongo` (`app/schemas/mongo.py`). -/
def FromMongo_fields : List FieldSpec := [("id", "str|ObjectId")]

/-- The field declarations of `SoftDeletion`. -/
def SoftDeletion_fields : List FieldSpec :=
  [("deleted_at", "datetime|None"), ("is_deleted", "bool")]

/-- The field declarations of `Timestamp`. -/
def Timestamp_fields : List FieldSpec :=
  [("created_at", "datetime"), ("updated_at", "datetime|None")]

/-- Keep, for each field name, the first declaration carrying it. -/
def dedupByNameAux : List String → List FieldSpec → List FieldSpec
  | _, [] => []
  | seen, f :: rest =>
    if f.1 ∈ seen then dedupByNameAux seen rest
    else f :: dedupByNameAux (f.1 :: seen) rest

/-- Pydantic field collection for `class NewModel(*bases): pass`: the
model's fields are gathered across the bases following the method
resolution order, so when two bases declare the same field name the
declaration of the earlier-listed base wins; Python raises no error on
such a collision. -/
def new_model_fields (bases : List (List FieldSpec)) :
    Except ModelError (List FieldSpec) :=
  Except.ok (dedupByNameAux [] (bases.foldl (fun acc b => acc ++ b) []))

/-- Composer `ModelGenerator.__generate_read_model` (name-mangled): compose
`FromMongo`, then `SoftDeletion` when `persistent_delete` is set, then
`Timestamp` when `time_stamp` is set, into one new model class. -/
def ModelGenerator.generate_read_model (persistent_delete time_stamp : Bool) :
    Except ModelError (List FieldSpec) :=
  let bases := [FromMongo_fields]
  let bases := if persistent_delete then bases ++ [SoftDeletion_fields] else bases
  let bases := if time_stamp then bases ++ [Timestamp_fields] else bases
  new_model_fields bases

/-- Composer `ModelGenerator._generate`: dispatch on the role; `"read"` composes
the read model, `"create"` and `"update"` return the bare `BaseModel`
(no fields), anything else raises `ValueError("Invalid model type")`. -/
def ModelGenerator._generate (ty : String) (persistent_delete time_stamp : Bool) :
    Except ModelError (List FieldSpec) :=
  match ty with
  | "read" => ModelGenerator.generate_read_model persistent_delete time_stamp
  | "create" => Except.ok []
  | "update" => Except.ok []
  | _ => Except.error ModelError.invalidConfiguration

/-- Composer `ModelGenerator.make_model`: construct the generator and `_generate`. -/
def ModelGenerator.make_model (ty : String) (persistent_delete time_stamp : Bool) :
    Except ModelError (List FieldSpec) :=
  ModelGenerator._generate ty persistent_delete time_stamp

/-!
Helper lemmas about dict and collection operations.
-/

/-- Setting a key makes it readable. -/
theorem dictGet_set_self (d : Doc) (k : String) (v : Value) :
    dictGet (dictSet d k v) k = some v := by
  induction d with
  | nil => simp [dictSet, dictGet]
  | cons kv rest ih =>
    by_cases h : kv.1 = k
    · simp [dictSet, h, dictGet]
    · simp [dictSet, h, dictGet, ih]

/-- Setting a key leaves other keys unchanged. -/
theorem dictGet_set_ne (d : Doc) (k k2 : String) (v : Value) (h : k2 ≠ k) :
    dictGet (dictSet d k v) k2 = dictGet d k2 := by
  have h2 : k ≠ k2 := Ne.symm h
  induction d with
  | nil => simp [dictSet, dictGet, h2]
  | cons kv rest ih =>
    by_cases hk : kv.1 = k
    · subst hk
      simp [dictSet, dictGet, h2]
    · simp only [dictSet, if_neg hk, dictGet]
      by_cases hk2 : kv.1 = k2
      · simp [hk2]
      · simp [hk2, ih]

/-- Setting an absent key appends the binding. -/
theorem dictSet_of_absent (d : Doc) (k : String) (v : Value)
    (h : dictGet d k = none) : dictSet d k v = d ++ [(k, v)] := by
  induction d with
  | nil => simp [dictSet]
  | cons kv rest ih =>
    by_cases hk : kv.1 = k
    · simp [dictGet, hk] at h
    · simp [dictGet, hk] at h
      simp [dictSet, hk, ih h]

/-- A dict update over a concatenation of patches is the two updates in
sequence. -/
theorem dictUpdate_append (d : Doc) (p q : Doc) :
    dictUpdate d (p ++ q) = dictUpdate (dictUpdate d p) q := by
  simp [dictUpdate, List.foldl_append]

/-- A dict update touches no key outside the patch. -/
theorem dictGet_update_of_not_mem (d : Doc) (patch : Doc) (k : String)
    (h : ∀ kv ∈ patch, kv.1 ≠ k) :
    dictGet (dictUpdate d patch) k = dictGet d k := by
  induction patch generalizing d with
  | nil => simp [dictUpdate]
  | cons kv rest ih =>
    have hrest : ∀ kv2 ∈ rest, kv2.1 ≠ k := fun kv2 hm => h kv2 (List.mem_cons_of_mem kv hm)
    have hk : kv.1 ≠ k := h kv (List.mem_cons_self kv rest)
    show dictGet (dictUpdate (dictSet d kv.1 kv.2) rest) k = dictGet d k
    rw [ih (dictSet d kv.1 kv.2) hrest, dictGet_set_ne d kv.1 k kv.2 (fun h2 => hk h2.symm)]

/-- A dict update writes each uniquely-bound key of the patch. -/
theorem dictGet_update_of_get (d : Doc) (patch : Doc) (k : String) (v : Value)
    (hnd : (patch.map Prod.fst).Nodup) (h : dictGet patch k = some v) :
    dictGet (dictUpdate d patch) k = some v := by
  induction patch generalizing d with
  | nil => simp [dictGet] at h
  | cons kv rest ih =>
    simp only [List.map_cons, List.nodup_cons] at hnd
    by_cases hk : kv.1 = k
    · have hv : kv.2 = v := by
        have := h
        simp only [dictGet, if_pos hk] at this
        exact Option.some.inj this
      have hrest : ∀ kv2 ∈ rest, kv2.1 ≠ k := by
        intro kv2 hm hk2
        apply hnd.1
        rw [hk, ← hk2]
        exact List.mem_map_of_mem Prod.fst hm
      show dictGet (dictUpdate (dictSet d kv.1 kv.2) rest) k = some v
      rw [dictGet_update_of_not_mem _ rest k hrest, ← hk, dictGet_set_self, hv]
    · have h2 : dictGet rest k = some v := by
        have := h
        simp only [dictGet, if_neg hk] at this
        exact this
      exact ih (dictSet d kv.1 kv.2) hnd.2 h2

/-- An empty dict update is the identity. -/
theorem dictUpdate_nil (d : Doc) : dictUpdate d [] = d := rfl

/-- A dict update by a single binding is a single assignment. -/
theorem dictUpdate_single (d : Doc) (k : String) (v : Value) :
    dictUpdate d [(k, v)] = dictSet d k v := rfl

/-- Every key the sparse dump emits is a field name of the shape. -/
theorem modelDumpSparse_keys (item : UpdateShape) (k : String)
    (h : ∀ f ∈ item, f.1 ≠ k) :
    ∀ kv ∈ modelDumpSparse item, kv.1 ≠ k := by
  induction item with
  | nil => intro kv hm; simp [modelDumpSparse] at hm
  | cons f rest ih =>
    have hrest := ih (fun g hm => h g (List.mem_cons_of_mem f hm))
    have hf := h f (List.mem_cons_self f rest)
    intro kv hm
    match f with
    | (k0, FieldState.unset) => exact hrest kv hm
    | (k0, FieldState.dflt v0) => exact hrest kv hm
    | (k0, FieldState.noneVal) => exact hrest kv hm
    | (k0, FieldState.set v0) =>
      simp only [modelDumpSparse] at hm
      rcases List.mem_cons.mp hm with h1 | h2
      · subst h1; exact hf
      · exact hrest kv h2

/-- A freshly appended document is found under its id when every earlier
id differs from it. -/
theorem findDoc_append_fresh (docs : Docs) (n : Nat) (d : Doc)
    (h : ∀ kv ∈ docs, kv.1 ≠ n) :
    findDoc (docs ++ [(n, d)]) n = some d := by
  induction docs with
  | nil => simp [findDoc]
  | cons kv rest ih =>
    have hk : kv.1 ≠ n := h kv (List.mem_cons_self kv rest)
    simp only [List.cons_append, findDoc, if_neg hk]
    exact ih (fun kv2 hm => h kv2 (List.mem_cons_of_mem kv hm))

/-- Store `update_one` merges the patch into the document found under the id. -/
theorem findDoc_setFirst (docs : Docs) (id : Nat) (patch : Doc) :
    findDoc (setFirst docs id patch) id = (findDoc docs id).map (fun d => dictUpdate d patch) := by
  induction docs with
  | nil => simp [setFirst, findDoc]
  | cons kv rest ih =>
    by_cases hk : kv.1 = id
    · simp [setFirst, hk, findDoc]
    · simp [setFirst, hk, findDoc, ih]

/-- Store `update_one` on one id leaves documents under other ids unchanged. -/
theorem findDoc_setFirst_ne (docs : Docs) (id id2 : Nat) (patch : Doc)
    (h : id2 ≠ id) :
    findDoc (setFirst docs id patch) id2 = findDoc docs id2 := by
  have h2 : id ≠ id2 := Ne.symm h
  induction docs with
  | nil => simp [setFirst, findDoc]
  | cons kv rest ih =>
    by_cases hk : kv.1 = id
    · subst hk
      simp [setFirst, findDoc, h2]
    · simp only [setFirst, if_neg hk, findDoc]
      by_cases hk2 : kv.1 = id2
      · simp [hk2]
      · simp [hk2, ih]

/-- A dict has no value for a key none of its bindings carry. -/
theorem dictGet_eq_none_of_not_mem (d : Doc) (k : String)
    (h : ∀ kv ∈ d, kv.1 ≠ k) : dictGet d k = none := by
  induction d with
  | nil => rfl
  | cons kv rest ih =>
    simp only [dictGet, if_neg (h kv (List.mem_cons_self kv rest))]
    exact ih fun kv2 hm => h kv2 (List.mem_cons_of_mem kv hm)

/-- What `create` stores, found again under the returned inserted id: the
defaults-merged, timestamp-stamped document. -/
theorem create_found_doc (c : BaseCRUD) (item defaults : Doc) (db : DB) (t : Nat)
    (hwf : db.Wf) :
    (c.create item db defaults t).db.find_one (c.create item db defaults t).inserted_id
      = some (if c.make_time_stamps then
                dictSet (dictSet (if defaults.isEmpty then item else dictUpdate item defaults)
                  "created_at" (Value.time t)) "updated_at" (Value.time t)
              else (if defaults.isEmpty then item else dictUpdate item defaults)) := by
  have hfresh : ∀ kv ∈ db.docs, kv.1 ≠ db.nextId := by
    intro kv hm
    exact Nat.ne_of_lt (hwf kv hm)
  exact findDoc_append_fresh db.docs db.nextId _ hfresh

/-- C5: `update(id, item)` and `delete(id)` on a well-formed id that
matches no record both return `false`, raise nothing, leave the store
contents unchanged, and invoke no lifecycle hook. -/
theorem C5_missing_id_returns_false (c : BaseCRUD) (id : Nat) (db : DB)
    (item : UpdateShape) (t : Nat) (h : db.find_one id = none) :
    c.update id item t db = { db := db, ack := false, hooks := [] }
  ∧ c.delete id t db = { db := db, ack := false, hooks := [] } := by
  have hex : c.id_exists id db = false := by
    simp [BaseCRUD.id_exists, h]
  constructor
  · simp [BaseCRUD.update, hex]
  · simp [BaseCRUD.delete, hex]

theorem C5_missing_id_returns_false_witness :
    BaseCRUD.update ⟨true, false⟩ 0 [] 0 ⟨[], 0⟩
      = { db := ⟨[], 0⟩, ack := false, hooks := [] }
  ∧ BaseCRUD.delete ⟨true, false⟩ 0 0 ⟨[], 0⟩
      = { db := ⟨[], 0⟩, ack := false, hooks := [] } :=
  C5_missing_id_returns_false ⟨true, false⟩ 0 ⟨[], 0⟩ [] 0 rfl

/-- C6: `get_by_id` and `find_and_is_soft_deleted` raise `NotFound` on a
well-formed id matching no record; on an existing record
`find_and_is_soft_deleted` returns the record's `is_deleted` value, with
`False` when the field is absent. -/
theorem C6_read_ops_not_found_and_flag (c : BaseCRUD) (id : Nat) (db : DB) :
    (db.find_one id = none →
      c.get_by_id id db = Except.error CrudError.notFound
      ∧ c.find_and_is_soft_deleted id db = Except.error CrudError.notFound)
  ∧ (∀ item, db.find_one id = some item →
      c.find_and_is_soft_deleted id db
        = Except.ok (dictGetD item "is_deleted" (Value.bool false))
      ∧ (dictGet item "is_deleted" = none →
          c.find_and_is_soft_deleted id db = Except.ok (Value.bool false))) := by
  constructor
  · intro h
    constructor
    · simp [BaseCRUD.get_by_id, h]
    · simp [BaseCRUD.find_and_is_soft_deleted, h]
  · intro item h
    constructor
    · simp [BaseCRUD.find_and_is_soft_deleted, h]
    · intro habs
      simp [BaseCRUD.find_and_is_soft_deleted, h, dictGetD, habs]

theorem C6_read_ops_not_found_and_flag_witness :
    (BaseCRUD.get_by_id ⟨true, true⟩ 0 ⟨[], 0⟩ = Except.error CrudError.notFound)
  ∧ (BaseCRUD.find_and_is_soft_deleted ⟨true, true⟩ 0
        ⟨[(0, [("name", Value.str "Jane")])], 1⟩ = Except.ok (Value.bool false)) :=
  ⟨((C6_read_ops_not_found_and_flag ⟨true, true⟩ 0 ⟨[], 0⟩).1 rfl).1,
   (((C6_read_ops_not_found_and_flag ⟨true, true⟩ 0
        ⟨[(0, [("name", Value.str "Jane")])], 1⟩).2
      [("name", Value.str "Jane")] rfl).2 rfl)⟩

/-- C8: `_generate` on any role outside `"read"`, `"create"`, `"update"`
raises the configuration error, and on `"create"`/`"update"` returns the
bare `BaseModel` shape with no mandatory field-groups. -/
theorem C8_role_dispatch (ty : String) (pd ts : Bool)
    (h1 : ty ≠ "read") (h2 : ty ≠ "create") (h3 : ty ≠ "update") :
    ModelGenerator._generate ty pd ts = Except.error ModelError.invalidConfiguration
  ∧ ModelGenerator._generate "create" pd ts = Except.ok []
  ∧ ModelGenerator._generate "update" pd ts = Except.ok [] := by
  refine ⟨?_, rfl, rfl⟩
  unfold ModelGenerator._generate
  split
  · exact absurd rfl h1
  · exact absurd rfl h2
  · exact absurd rfl h3
  · rfl

theorem C8_role_dispatch_witness :
    ModelGenerator._generate "delete" true true
      = Except.error ModelError.invalidConfiguration
  ∧ ModelGenerator._generate "create" true true = Except.ok []
  ∧ ModelGenerator._generate "update" true true = Except.ok [] :=
  C8_role_dispatch "delete" true true (by decide) (by decide) (by decide)

/-- C1: evaluation of `delete` at the failing input. With soft-delete
enabled and a single active record (no `is_deleted` field), the first
`delete` already removes the record and `get_by_id` then raises
`NotFound`, because the un-awaited guard in `_delete` makes the hard
delete branch unconditional; the claim's soft-delete flip never happens. -/
theorem C1_first_delete_hard_deletes :
    BaseCRUD.delete ⟨true, true⟩ 0 5 ⟨[(0, [("name", Value.str "Jane")])], 1⟩
      = { db := ⟨[], 1⟩, ack := true, hooks := [Hook.onDelete] }
  ∧ BaseCRUD.get_by_id ⟨true, true⟩ 0 ⟨[], 1⟩ = Except.error CrudError.notFound :=
  ⟨rfl, rfl⟩

/-- C2 counterexample: for the create input `{name: "Jane", status:
"pending"}` with extra default `{status: "active"}`, the inserted document
carries the default's value `"active"`, not the item's explicit
`"pending"` — `item_updated.update(defaults_fields)` lets defaults win. -/
theorem C2_defaults_override_counterexample :
    ((BaseCRUD.create ⟨false, false⟩
        [("name", Value.str "Jane"), ("status", Value.str "pending")]
        ⟨[], 0⟩ [("status", Value.str "active")] 0).db.find_one 0).map
        (fun d => dictGet d "status")
      = some (some (Value.str "active"))
  ∧ ((BaseCRUD.create ⟨false, false⟩
        [("name", Value.str "Jane"), ("status", Value.str "pending")]
        ⟨[], 0⟩ [("status", Value.str "active")] 0).db.find_one 0).map
        (fun d => dictGet d "status")
      ≠ some (some (Value.str "pending")) :=
  ⟨rfl, by decide⟩

/-- C2 amended: `create` merges `extra_defaults` with `dict.update`, so a
default's value is inserted for every key the defaults carry — including
keys explicitly present in the serialized item, which it overrides — while
keys not named in the defaults keep the item's value. -/
theorem C2_amended_defaults_win (c : BaseCRUD) (item defaults : Doc) (db : DB)
    (t : Nat) (k : String) (v : Value)
    (hwf : db.Wf)
    (hnd : (defaults.map Prod.fst).Nodup)
    (hk : dictGet defaults k = some v)
    (h1 : k ≠ "created_at") (h2 : k ≠ "updated_at") :
    ∃ d, (c.create item db defaults t).db.find_one
            (c.create item db defaults t).inserted_id = some d
      ∧ dictGet d k = some v
      ∧ (∀ k2, (∀ f ∈ defaults, f.1 ≠ k2) → k2 ≠ "created_at" → k2 ≠ "updated_at" →
          dictGet d k2 = dictGet item k2) := by
  have hfound := create_found_doc c item defaults db t hwf
  have hne : defaults.isEmpty = false := by
    cases defaults with
    | nil => simp [dictGet] at hk
    | cons f rest => rfl
  rw [hne] at hfound
  simp only [Bool.false_eq_true, if_false] at hfound
  refine ⟨_, hfound, ?_, ?_⟩
  · by_cases hts : c.make_time_stamps
    · simp only [hts, if_true]
      rw [dictGet_set_ne _ "updated_at" k _ h2, dictGet_set_ne _ "created_at" k _ h1]
      exact dictGet_update_of_get item defaults k v hnd hk
    · simp only [hts, if_false]
      exact dictGet_update_of_get item defaults k v hnd hk
  · intro k2 hk2 hc2 hu2
    by_cases hts : c.make_time_stamps
    · simp only [hts, if_true]
      rw [dictGet_set_ne _ "updated_at" k2 _ hu2, dictGet_set_ne _ "created_at" k2 _ hc2]
      exact dictGet_update_of_not_mem item defaults k2 hk2
    · simp only [hts, if_false]
      exact dictGet_update_of_not_mem item defaults k2 hk2

theorem C2_amended_defaults_win_witness :
    ∃ d, (BaseCRUD.create ⟨true, true⟩ [("status", Value.str "pending")] ⟨[], 0⟩
            [("status", Value.str "active")] 3).db.find_one
          (BaseCRUD.create ⟨true, true⟩ [("status", Value.str "pending")] ⟨[], 0⟩
            [("status", Value.str "active")] 3).inserted_id = some d
      ∧ dictGet d "status" = some (Value.str "active")
      ∧ (∀ k2, (∀ f ∈ [(("status" : String), Value.str "active")], f.1 ≠ k2) →
          k2 ≠ "created_at" → k2 ≠ "updated_at" →
          dictGet d k2 = dictGet [("status", Value.str "pending")] k2) :=
  C2_amended_defaults_win ⟨true, true⟩ [("status", Value.str "pending")]
    [("status", Value.str "active")] ⟨[], 0⟩ 3 "status" (Value.str "active")
    (by decide) (by decide) rfl (by decide) (by decide)

/-- C7 counterexample: the class-creation merge used by the read-model
composer raises no error when two field-groups declare the same field
name; it silently keeps the earlier-listed group's declaration (here the
`int` declaration of `x`, dropping the second group's `str` one). -/
theorem C7_collision_is_silent_counterexample :
    new_model_fields [[("x", "int")], [("x", "str"), ("y", "bool")]]
        = Except.ok [("x", "int"), ("y", "bool")]
  ∧ new_model_fields [[("x", "int")], [("x", "str"), ("y", "bool")]]
        ≠ Except.error ModelError.invalidConfiguration := by
  constructor
  · rfl
  · intro h
    simp [new_model_fields] at h

/-- C7 amended: composing a read shape never fails — the composer performs
no collision check (a shared field name would be silently resolved in
favour of the earlier-listed group) — and with the repository's actual
field-groups every composed read shape has pairwise-distinct field names,
so no collision ever arises. -/
theorem C7_amended_no_collision_check (pd ts : Bool) :
    ∃ fields, ModelGenerator.generate_read_model pd ts = Except.ok fields
      ∧ (fields.map Prod.fst).Nodup := by
  cases pd <;> cases ts <;> exact ⟨_, rfl, by decide⟩

/-- C4: `create` with no extra defaults returns an id under which
`get_by_id` finds a read shape carrying exactly the input's value on every
domain field (any field other than the server-stamped timestamps). -/
theorem C4_create_get_roundtrip (c : BaseCRUD) (item : Doc) (db : DB) (t : Nat)
    (k : String) (hwf : db.Wf) (h1 : k ≠ "created_at") (h2 : k ≠ "updated_at") :
    ∃ d, c.get_by_id (c.create item db [] t).inserted_id (c.create item db [] t).db
          = Except.ok { id := (c.create item db [] t).inserted_id, fields := d }
      ∧ dictGet d k = dictGet item k := by
  have hfound := create_found_doc c item [] db t hwf
  simp only [List.isEmpty_nil, if_true] at hfound
  refine ⟨if c.make_time_stamps = true then
      dictSet (dictSet item "created_at" (Value.time t)) "updated_at" (Value.time t)
    else item, ?_, ?_⟩
  · simp only [BaseCRUD.get_by_id, hfound]
  · by_cases hts : c.make_time_stamps
    · rw [if_pos hts, dictGet_set_ne _ "updated_at" k _ h2,
        dictGet_set_ne _ "created_at" k _ h1]
    · rw [if_neg hts]

theorem C4_create_get_roundtrip_witness :
    ∃ d, BaseCRUD.get_by_id ⟨true, false⟩
          (BaseCRUD.create ⟨true, false⟩ [("name", Value.str "Jane"), ("age", Value.int 25)]
            ⟨[], 0⟩ [] 7).inserted_id
          (BaseCRUD.create ⟨true, false⟩ [("name", Value.str "Jane"), ("age", Value.int 25)]
            ⟨[], 0⟩ [] 7).db
        = Except.ok (ReadShape.mk (BaseCRUD.create ⟨true, false⟩
              [("name", Value.str "Jane"), ("age", Value.int 25)] ⟨[], 0⟩ [] 7).inserted_id d)
      ∧ dictGet d "name" = dictGet [("name", Value.str "Jane"), ("age", Value.int 25)] "name" :=
  C4_create_get_roundtrip ⟨true, false⟩ [("name", Value.str "Jane"), ("age", Value.int 25)]
    ⟨[], 0⟩ 7 "name" (by decide) (by decide) (by decide)

/-- What `update` stores on an existing record with timestamping enabled:
the sparse patch merged into the record, then `updated_at` stamped (the
stamp is assigned after the dump, so it lands last). The call returns the
acknowledgement and invokes exactly `on_update`. -/
theorem update_found_doc (c : BaseCRUD) (id : Nat) (upd : UpdateShape) (t : Nat)
    (db : DB) (d0 : Doc) (hfind : db.find_one id = some d0)
    (hts : c.make_time_stamps = true)
    (hnu : dictGet (modelDumpSparse upd) "updated_at" = none) :
    (c.update id upd t db).db.find_one id
      = some (dictSet (dictUpdate d0 (modelDumpSparse upd)) "updated_at" (Value.time t))
  ∧ (c.update id upd t db).ack = true
  ∧ (c.update id upd t db).hooks = [Hook.onUpdate] := by
  have hex : c.id_exists id db = true := by
    simp [BaseCRUD.id_exists, hfind]
  have hpatch : dictSet (modelDumpSparse upd) "updated_at" (Value.time t)
      = modelDumpSparse upd ++ [("updated_at", Value.time t)] :=
    dictSet_of_absent _ _ _ hnu
  refine ⟨?_, ?_, ?_⟩
  · simp only [BaseCRUD.update, hex, if_true, BaseCRUD._update, hts,
      BaseCRUD.priv_update, DB.update_one]
    show findDoc (setFirst db.docs id _) id = _
    rw [hpatch, findDoc_setFirst]
    have hfind2 : findDoc db.docs id = some d0 := hfind
    rw [hfind2]
    simp only [Option.map_some']
    rw [dictUpdate_append, dictUpdate_single]
  · simp [BaseCRUD.update, hex, BaseCRUD._update, BaseCRUD.priv_update, DB.update_one]
  · simp [BaseCRUD.update, hex, BaseCRUD._update, BaseCRUD.priv_update, DB.update_one]

/-- What `update` stores on an existing record with timestamping disabled:
just the sparse patch, field-merged. -/
theorem update_found_doc_no_ts (c : BaseCRUD) (id : Nat) (upd : UpdateShape)
    (t : Nat) (db : DB) (d0 : Doc) (hfind : db.find_one id = some d0)
    (hts : c.make_time_stamps = false) :
    (c.update id upd t db).db.find_one id = some (dictUpdate d0 (modelDumpSparse upd))
  ∧ (c.update id upd t db).ack = true
  ∧ (c.update id upd t db).hooks = [Hook.onUpdate] := by
  have hex : c.id_exists id db = true := by
    simp [BaseCRUD.id_exists, hfind]
  refine ⟨?_, ?_, ?_⟩
  · simp only [BaseCRUD.update, hex, if_true, BaseCRUD._update, hts,
      Bool.false_eq_true, if_false, BaseCRUD.priv_update, DB.update_one]
    show findDoc (setFirst db.docs id _) id = _
    rw [findDoc_setFirst]
    have hfind2 : findDoc db.docs id = some d0 := hfind
    rw [hfind2]
    simp only [Option.map_some']
  · simp [BaseCRUD.update, hex, BaseCRUD._update, BaseCRUD.priv_update, DB.update_one]
  · simp [BaseCRUD.update, hex, BaseCRUD._update, BaseCRUD.priv_update, DB.update_one]

/-- C3: with timestamping enabled, the created record satisfies
`created_at == updated_at` at creation time `t1`, and after an update at a
strictly later time `t2` on domain fields, `updated_at` has strictly
increased to `t2` while `created_at` still holds `t1`. -/
theorem C3_timestamp_invariant (c : BaseCRUD) (item defaults : Doc) (db : DB)
    (t1 t2 : Nat) (upd : UpdateShape)
    (hts : c.make_time_stamps = true) (hwf : db.Wf) (ht : t1 < t2)
    (hupd : ∀ f ∈ upd, f.1 ≠ "created_at" ∧ f.1 ≠ "updated_at") :
    ∃ d1 d2,
      (c.create item db defaults t1).db.find_one
          (c.create item db defaults t1).inserted_id = some d1
      ∧ dictGet d1 "created_at" = some (Value.time t1)
      ∧ dictGet d1 "updated_at" = some (Value.time t1)
      ∧ (c.update (c.create item db defaults t1).inserted_id upd t2
            (c.create item db defaults t1).db).db.find_one
          (c.create item db defaults t1).inserted_id = some d2
      ∧ dictGet d2 "created_at" = some (Value.time t1)
      ∧ dictGet d2 "updated_at" = some (Value.time t2)
      ∧ t1 < t2 := by
  have hfound := create_found_doc c item defaults db t1 hwf
  simp only [hts, if_true] at hfound
  have hnu : dictGet (modelDumpSparse upd) "updated_at" = none :=
    dictGet_eq_none_of_not_mem _ _
      (modelDumpSparse_keys upd _ (fun f hf => (hupd f hf).2))
  have hupdated := update_found_doc c _ upd t2 _ _ hfound hts hnu
  have hcr1 : dictGet (dictSet (dictSet
      (if defaults.isEmpty then item else dictUpdate item defaults)
      "created_at" (Value.time t1)) "updated_at" (Value.time t1)) "created_at"
      = some (Value.time t1) := by
    rw [dictGet_set_ne _ "updated_at" "created_at" _ (by decide)]
    exact dictGet_set_self _ _ _
  refine ⟨_, _, hfound, hcr1, dictGet_set_self _ _ _, hupdated.1, ?_, ?_, ht⟩
  · rw [dictGet_set_ne _ "updated_at" "created_at" _ (by decide)]
    rw [dictGet_update_of_not_mem _ _ _
      (modelDumpSparse_keys upd _ (fun f hf => (hupd f hf).1))]
    exact hcr1
  · exact dictGet_set_self _ _ _

theorem C3_timestamp_invariant_witness :
    ∃ d1 d2,
      (BaseCRUD.create ⟨true, false⟩ [("name", Value.str "Jane")] ⟨[], 0⟩ [] 1).db.find_one
          (BaseCRUD.create ⟨true, false⟩ [("name", Value.str "Jane")] ⟨[], 0⟩ [] 1).inserted_id
        = some d1
      ∧ dictGet d1 "created_at" = some (Value.time 1)
      ∧ dictGet d1 "updated_at" = some (Value.time 1)
      ∧ (BaseCRUD.update ⟨true, false⟩
            (BaseCRUD.create ⟨true, false⟩ [("name", Value.str "Jane")] ⟨[], 0⟩ [] 1).inserted_id
            [("name", FieldState.set (Value.str "Janet"))] 2
            (BaseCRUD.create ⟨true, false⟩ [("name", Value.str "Jane")] ⟨[], 0⟩ [] 1).db).db.find_one
          (BaseCRUD.create ⟨true, false⟩ [("name", Value.str "Jane")] ⟨[], 0⟩ [] 1).inserted_id
        = some d2
      ∧ dictGet d2 "created_at" = some (Value.time 1)
      ∧ dictGet d2 "updated_at" = some (Value.time 2)
      ∧ 1 < 2 :=
  C3_timestamp_invariant ⟨true, false⟩ [("name", Value.str "Jane")] [] ⟨[], 0⟩ 1 2
    [("name", FieldState.set (Value.str "Janet"))] rfl (by decide) (by decide) (by decide)

/-- C9: on an existing record, an update whose sparse serialization sets
exactly the single domain field `X` writes `X` (plus `updated_at` when
timestamping is enabled) and leaves every other field of the record
unchanged; it returns the acknowledgement and invokes `on_update`. -/
theorem C9_sparse_update_frame (c : BaseCRUD) (db : DB) (id : Nat) (d0 : Doc)
    (t : Nat) (X : String) (v : Value) (upd : UpdateShape)
    (hfind : db.find_one id = some d0)
    (hdump : modelDumpSparse upd = [(X, v)])
    (hX : X ≠ "updated_at") :
    ∃ d2, (c.update id upd t db).db.find_one id = some d2
      ∧ dictGet d2 X = some v
      ∧ (∀ k, k ≠ X → k ≠ "updated_at" → dictGet d2 k = dictGet d0 k)
      ∧ (c.make_time_stamps = true → dictGet d2 "updated_at" = some (Value.time t))
      ∧ (c.update id upd t db).ack = true
      ∧ (c.update id upd t db).hooks = [Hook.onUpdate] := by
  by_cases hts : c.make_time_stamps
  · have hnu : dictGet (modelDumpSparse upd) "updated_at" = none := by
      rw [hdump]
      simp [dictGet, hX]
    have h := update_found_doc c id upd t db d0 hfind hts hnu
    rw [hdump, dictUpdate_single] at h
    refine ⟨_, h.1, ?_, ?_, fun _ => dictGet_set_self _ _ _, h.2.1, h.2.2⟩
    · rw [dictGet_set_ne _ "updated_at" X _ hX]
      exact dictGet_set_self _ _ _
    · intro k hkX hku
      rw [dictGet_set_ne _ "updated_at" k _ hku, dictGet_set_ne _ X k _ hkX]
  · have hts2 : c.make_time_stamps = false := by
      cases h2 : c.make_time_stamps
      · rfl
      · exact absurd h2 hts
    have h := update_found_doc_no_ts c id upd t db d0 hfind hts2
    rw [hdump, dictUpdate_single] at h
    refine ⟨_, h.1, dictGet_set_self _ _ _, ?_, ?_, h.2.1, h.2.2⟩
    · intro k hkX _
      rw [dictGet_set_ne _ X k _ hkX]
    · intro habs
      exact absurd habs hts

theorem C9_sparse_update_frame_witness :
    ∃ d2, (BaseCRUD.update ⟨true, false⟩ 0
          [("name", FieldState.unset), ("age", FieldState.set (Value.int 26))] 9
          ⟨[(0, [("name", Value.str "Jane"), ("age", Value.int 25)])], 1⟩).db.find_one 0
        = some d2
      ∧ dictGet d2 "age" = some (Value.int 26)
      ∧ (∀ k, k ≠ "age" → k ≠ "updated_at" →
          dictGet d2 k = dictGet [("name", Value.str "Jane"), ("age", Value.int 25)] k)
      ∧ ((⟨true, false⟩ : BaseCRUD).make_time_stamps = true →
          dictGet d2 "updated_at" = some (Value.time 9))
      ∧ (BaseCRUD.update ⟨true, false⟩ 0
          [("name", FieldState.unset), ("age", FieldState.set (Value.int 26))] 9
          ⟨[(0, [("name", Value.str "Jane"), ("age", Value.int 25)])], 1⟩).ack = true
      ∧ (BaseCRUD.update ⟨true, false⟩ 0
          [("name", FieldState.unset), ("age", FieldState.set (Value.int 26))] 9
          ⟨[(0, [("name", Value.str "Jane"), ("age", Value.int 25)])], 1⟩).hooks
        = [Hook.onUpdate] :=
  C9_sparse_update_frame ⟨true, false⟩
    ⟨[(0, [("name", Value.str "Jane"), ("age", Value.int 25)])], 1⟩ 0
    [("name", Value.str "Jane"), ("age", Value.int 25)] 9 "age" (Value.int 26)
    [("name", FieldState.unset), ("age", FieldState.set (Value.int 26))]
    rfl rfl (by decide)

/-- C10: with timestamping enabled, an update on an existing record whose
sparse serialization is empty still issues a store write that stamps
`updated_at` with the call's clock, changes nothing else, invokes
`on_update`, and returns the acknowledgement — not a no-op. -/
theorem C10_empty_patch_still_stamps (c : BaseCRUD) (db : DB) (id : Nat)
    (d0 : Doc) (t : Nat) (upd : UpdateShape)
    (hts : c.make_time_stamps = true)
    (hfind : db.find_one id = some d0)
    (hdump : modelDumpSparse upd = []) :
    (c.update id upd t db).ack = true
  ∧ (c.update id upd t db).hooks = [Hook.onUpdate]
  ∧ ∃ d2, (c.update id upd t db).db.find_one id = some d2
      ∧ dictGet d2 "updated_at" = some (Value.time t)
      ∧ (∀ k, k ≠ "updated_at" → dictGet d2 k = dictGet d0 k) := by
  have hnu : dictGet (modelDumpSparse upd) "updated_at" = none := by
    rw [hdump]
    rfl
  have h := update_found_doc c id upd t db d0 hfind hts hnu
  rw [hdump, dictUpdate_nil] at h
  refine ⟨h.2.1, h.2.2, _, h.1, dictGet_set_self _ _ _, ?_⟩
  intro k hk
  rw [dictGet_set_ne _ "updated_at" k _ hk]

theorem C10_empty_patch_still_stamps_witness :
    (BaseCRUD.update ⟨true, true⟩ 0 [("name", FieldState.noneVal)] 4
        ⟨[(0, [("name", Value.str "Jane")])], 1⟩).ack = true
  ∧ (BaseCRUD.update ⟨true, true⟩ 0 [("name", FieldState.noneVal)] 4
        ⟨[(0, [("name", Value.str "Jane")])], 1⟩).hooks = [Hook.onUpdate]
  ∧ ∃ d2, (BaseCRUD.update ⟨true, true⟩ 0 [("name", FieldState.noneVal)] 4
        ⟨[(0, [("name", Value.str "Jane")])], 1⟩).db.find_one 0 = some d2
      ∧ dictGet d2 "updated_at" = some (Value.time 4)
      ∧ (∀ k, k ≠ "updated_at" →
          dictGet d2 k = dictGet [("name", Value.str "Jane")] k) :=
  C10_empty_patch_still_stamps ⟨true, true⟩
    ⟨[(0, [("name", Value.str "Jane")])], 1⟩ 0 [("name", Value.str "Jane")] 4
    [("name", FieldState.noneVal)] rfl rfl rfl
